import Mathlib

/-
  Verification of the spreadsheet template population engine and the Google
  Drive naming/header utilities of the backend service.

  The Python sources under `backend/app/services/google_drive/` are embedded
  shallowly below: strings are Lean `String`s (lists of unicode code points),
  Python `None`-able worksheet cells are `Option String`, Python dicts are
  association lists with first-match lookup, and Python sets of strings are
  duplicate-free lists (only membership is ever observed).

  The `excel_templates` package (the merge-aware cell writer, the archive
  rewriter and the populate/extract entry points) is not part of the sources;
  the definitions for it are modelled from the specification and are marked
  as such in their doc comments.
-/

/-- The set of characters Python's `str.strip()` and the regex class for
whitespace treat as whitespace (ASCII whitespace, the C1 separators, and the
Unicode space characters). -/
def isPySpace (c : Char) : Bool :=
  c = ' ' || c = '\t' || c = '\n' || c = '\r' || c = '\x0b' || c = '\x0c' ||
  c = '\x1c' || c = '\x1d' || c = '\x1e' || c = '\x1f' || c = '\x85' ||
  c = '\xa0' || c = '\u1680' || ('\u2000' ≤ c && c ≤ '\u200a') ||
  c = '\u2028' || c = '\u2029' || c = '\u202f' || c = '\u205f' || c = '\u3000'

/-- Python `s.strip()` on a list of characters: drop whitespace from both ends. -/
def pyStripList (cs : List Char) : List Char :=
  ((cs.dropWhile isPySpace).reverse.dropWhile isPySpace).reverse

/-- Python `s.strip()`. -/
def pyStrip (s : String) : String :=
  String.mk (pyStripList s.data)

/-- Collapse consecutive runs of spaces to a single space (the tail step of
Python's whitespace-run substitution once every whitespace character has been
mapped to a plain space). -/
def squeezeSpaces : List Char → List Char
  | [] => []
  | [c] => [c]
  | a :: b :: rest =>
    if a = ' ' && b = ' ' then squeezeSpaces (b :: rest)
    else a :: squeezeSpaces (b :: rest)

/-- The substitution replacing every maximal whitespace run by one space:
map each whitespace character to a space, then squeeze runs of spaces. -/
def collapseWhitespaceRuns (cs : List Char) : List Char :=
  squeezeSpaces (cs.map (fun c => if isPySpace c then ' ' else c))

/-- Models `unicodedata.normalize("NFKC", s)`.  NFKC is the identity on every
code point the repository's labels and the inputs below use (ASCII and
precomposed Hangul); the one compatibility mapping the code relies on — the
no-break space folding to a plain space — is carried explicitly. -/
def nfkc (s : String) : String :=
  String.mk (s.data.map (fun c => if c = '\xa0' then ' ' else c))

/-- `normalize_drive_text` from `google_drive/naming.py`: NFKC-normalize,
replace no-break spaces, strip, lowercase, collapse whitespace runs to a
single space. -/
def normalize_drive_text (value : String) : String :=
  let normalized := nfkc value
  let normalized := String.mk (normalized.data.map (fun c => if c = '\xa0' then ' ' else c))
  let normalized := String.mk ((pyStrip normalized).data.map Char.toLower)
  String.mk (collapseWhitespaceRuns normalized.data)

/-- The character class removed by `squash_drive_text`
(the regex class of whitespace, dot, underscore, hyphen and parentheses). -/
def isSquashRemoved (c : Char) : Bool :=
  isPySpace c || c = '.' || c = '_' || c = '-' || c = '(' || c = ')'

/-- `squash_drive_text` from `google_drive/naming.py`: delete every character
of the class `[\s._\-()]` (substituting runs by the empty string equals
filtering the class out character-wise). -/
def squash_drive_text (value : String) : String :=
  if value = "" then ""
  else String.mk (value.data.filter (fun c => !(isSquashRemoved c)))

/-- `strip_drive_extension`: everything before the last dot, when a dot
occurs (Python `value.rsplit(".", 1)[0]`). -/
def strip_drive_extension (value : String) : String :=
  if value.data.contains '.' then
    String.mk (((value.data.reverse.dropWhile (fun c => c ≠ '.')).drop 1).reverse)
  else value

/-- Fuel-driven recognizer for the `(?:[._\-]\d+)*` tail of the
version-suffix regex, consuming the whole remaining input.  The fuel only
makes the recursion structural; it is never exhausted when initialized with
the length of the input. -/
def isSepDigitGroupsFuel : Nat → List Char → Bool
  | _, [] => true
  | 0, _ :: _ => false
  | fuel + 1, c :: cs =>
    (c = '.' || c = '_' || c = '-') &&
    (cs.takeWhile Char.isDigit ≠ [] &&
      isSepDigitGroupsFuel fuel (cs.dropWhile Char.isDigit))

/-- Does the whole character list match `(?:[._\-]\d+)*` ? -/
def isSepDigitGroups (cs : List Char) : Bool :=
  isSepDigitGroupsFuel cs.length cs

/-- Does the whole character list match `v\s*\d+(?:[._\-]\d+)*` ? -/
def matchesVersionTail (cs : List Char) : Bool :=
  match cs with
  | 'v' :: rest =>
    let afterSpace := rest.dropWhile isPySpace
    (afterSpace.takeWhile Char.isDigit ≠ []) &&
      isSepDigitGroups (afterSpace.dropWhile Char.isDigit)
  | _ => false

/-- Remove the leftmost suffix matching the version pattern (the effect of
`re.sub(r"v\s*\d+(?:[._\-]\d+)*$", "", value)`). -/
def stripVersionList : List Char → List Char
  | [] => []
  | c :: cs => if matchesVersionTail (c :: cs) then [] else c :: stripVersionList cs

/-- `strip_drive_version_suffix` from `google_drive/naming.py`. -/
def strip_drive_version_suffix (value : String) : String :=
  pyStrip (String.mk (stripVersionList value.data))

/-- Add a string to a duplicate-free list, modelling `set.add`. -/
def addVariant (xs : List String) (v : String) : List String :=
  if xs.contains v then xs else xs ++ [v]

/-- `drive_name_variants` from `google_drive/naming.py`: the set of
normalized / squashed / extensionless / versionless keys of a name, with keys
shorter than two characters dropped.  The Python set is modelled as a
duplicate-free list; only membership is observed downstream. -/
def drive_name_variants (value : String) : List String :=
  let normalized := normalize_drive_text value
  if normalized = "" then []
  else
    let variants := [normalized]
    let squashed := squash_drive_text normalized
    let variants := if squashed ≠ "" then addVariant variants squashed else variants
    let stem := strip_drive_extension normalized
    let variants :=
      if stem ≠ "" ∧ stem ≠ normalized then
        let variants := addVariant variants stem
        let squashedStem := squash_drive_text stem
        if squashedStem ≠ "" then addVariant variants squashedStem else variants
      else variants
    let versionless := strip_drive_version_suffix stem
    let variants :=
      if versionless ≠ "" ∧ ¬ variants.contains versionless then
        let variants := variants ++ [versionless]
        let squashedVersionless := squash_drive_text versionless
        if squashedVersionless ≠ "" then addVariant variants squashedVersionless
        else variants
      else variants
    variants.filter (fun v => v.length ≥ 2)

/-- `drive_name_matches` from `google_drive/naming.py`: both names must have
variants and the variant sets must intersect. -/
def drive_name_matches (value expected : String) : Bool :=
  let actualTokens := drive_name_variants value
  let expectedTokens := drive_name_variants expected
  if actualTokens = [] ∨ expectedTokens = [] then false
  else actualTokens.any (fun t => expectedTokens.contains t)

/-- `leadsWith needle hay`: is `needle` an initial segment of `hay`? -/
def leadsWith : List Char → List Char → Bool
  | [], _ => true
  | _ :: _, [] => false
  | a :: as, b :: bs => a = b && leadsWith as bs

/-- `occursIn needle hay`: does `needle` occur contiguously inside `hay`?
This is Python's substring test `needle in hay`. -/
def occursIn (needle : List Char) : List Char → Bool
  | [] => leadsWith needle []
  | b :: bs => leadsWith needle (b :: bs) || occursIn needle bs

/-- Normalized text of one worksheet cell (`None` cells contribute the empty
string, other cells are stringified and normalized). -/
def cellNormalized (v : Option String) : String :=
  match v with
  | none => ""
  | some s => normalize_drive_text s

/-- The per-cell match test of `looks_like_header_row`: normalized equality or
substring containment in either direction, or containment of the squashed
expected label in the squashed cell. -/
def headerCellMatch (e es a as : String) : Bool :=
  (e ≠ "" && a ≠ "" &&
    (a = e || occursIn e.data a.data || occursIn a.data e.data)) ||
  (es ≠ "" && as ≠ "" && occursIn es.data as.data)

/-- Number of expected labels having a matching cell, each counted at most
once (the `matches` counter of `looks_like_header_row`). -/
def headerMatchCount (values : List (Option String)) (expected : List String) : Nat :=
  let normVals := values.map cellNormalized
  (expected.map normalize_drive_text).countP (fun e =>
    normVals.any (fun a => headerCellMatch e (squash_drive_text e) a (squash_drive_text a)))

/-- `looks_like_header_row` from `google_drive/naming.py`. -/
def looks_like_header_row (values : List (Option String)) (expected : List String) : Bool :=
  if values = [] then false
  else
    let matchCount := headerMatchCount values expected
    if matchCount = 0 then false
    else decide (max 1 (expected.length - 1) ≤ matchCount)

/-- Modelled from the spec: the static feature-list column schema
(`FEATURE_LIST_EXPECTED_HEADERS`, exported by the `excel_templates` package
which is absent from the sources).  The spec fixes the schema order
[major, middle, minor, description]; the Korean labels are the ones
`feature_lists.py` reads back from the schema. -/
def FEATURE_LIST_EXPECTED_HEADERS : List String :=
  ["대분류", "중분류", "소분류", "기능 설명"]

/-- `FEATURE_LIST_START_ROW` from `google_drive/templates.py`. -/
def FEATURE_LIST_START_ROW : Nat := 8

/-- Does a cell hold text that survives `str(...).strip()` ? -/
def cellHasText (v : Option String) : Bool :=
  match v with
  | none => false
  | some s => pyStrip s ≠ ""

/-- The `has_values` test of `parse_feature_list_workbook`: some cell among
the expected column positions (the first `headers.length` columns) is
non-empty after stripping. -/
def rowHasValues (headers : List String) (row : List (Option String)) : Bool :=
  (List.range headers.length).any (fun i => cellHasText (row.getD i none))

/-- Outcome of the header scanning loop of `parse_feature_list_workbook`. -/
structure ScanResult where
  headerRowIndex : Option Nat
  headerRowValues : Option (List (Option String))
  firstDataRowIndex : Option Nat
deriving DecidableEq

/-- The header scanning loop of `parse_feature_list_workbook` (one-based row
index threaded as `idx`, the provisional first data row as `firstData`). -/
def scanRows (headers : List String) :
    List (List (Option String)) → Nat → Option Nat → ScanResult
  | [], _, firstData => ⟨none, none, firstData⟩
  | row :: rest, idx, firstData =>
    let hasVals := rowHasValues headers row
    let hm := looks_like_header_row row headers
    let firstData := if hasVals && !hm && firstData.isNone then some idx else firstData
    if hm then ⟨some idx, some row, firstData⟩
    else if decide (FEATURE_LIST_START_ROW * 2 ≤ idx) && firstData.isSome then
      ⟨none, none, firstData⟩
    else scanRows headers rest (idx + 1) firstData

/-- The data start row resolved by `parse_feature_list_workbook`: one past the
header row when one was found, else the first data row (clamped to at least
one), else the configured default start row. -/
def resolveStartRow (headers : List String) (rows : List (List (Option String))) : Nat :=
  let r := scanRows headers rows 1 none
  match r.headerRowIndex with
  | some h => h + 1
  | none =>
    match r.firstDataRowIndex with
    | some f => max 1 f
    | none => FEATURE_LIST_START_ROW

/-- First-match lookup in an association list, modelling `dict.get`. -/
def alistLookup (m : List (String × Nat)) (k : String) : Option Nat :=
  match m.find? (fun p => p.1 = k) with
  | some p => some p.2
  | none => none

/-- `dict.setdefault`: keep an existing binding, otherwise append the new one. -/
def setdefault (m : List (String × Nat)) (k : String) (v : Nat) : List (String × Nat) :=
  if (alistLookup m k).isSome then m else m ++ [(k, v)]

/-- The positional-default loop of `parse_feature_list_workbook`: give every
schema label without a discovered column its index in the schema order. -/
def applyColumnDefaults (m : List (String × Nat)) : List (String × Nat) :=
  FEATURE_LIST_EXPECTED_HEADERS.enum.foldl (fun acc p => setdefault acc p.2 p.1) m

/-- Text of the cell a schema label maps to
(`row_values[column_index]` stringified and stripped, empty for a missing
column or an out-of-range index). -/
def cellTextAt (columnMap : List (String × Nat)) (row : List (Option String))
    (h : String) : String :=
  match alistLookup columnMap h with
  | some i =>
    match row.getD i none with
    | some v => pyStrip v
    | none => ""
  | none => ""

/-- One extracted feature-list record. -/
structure FeatureRow where
  majorCategory : String
  middleCategory : String
  minorCategory : String
  featureDescription : String
deriving DecidableEq

/-- First-match lookup of a label in the per-row data, modelling
`row_data.get(label, "")`. -/
def rowDataGet (rowData : List (String × String)) (k : String) : String :=
  match rowData.find? (fun p => p.1 = k) with
  | some p => p.2
  | none => ""

/-- The per-row body of the extraction loop of `parse_feature_list_workbook`:
skip rows that look like a header, build the label-to-text mapping, drop the
row when every field is empty, otherwise emit the record (the description
falls back from the description column to the overview column). -/
def processDataRow (columnMap : List (String × Nat)) (headers : List String)
    (row : List (Option String)) : Option FeatureRow :=
  if looks_like_header_row row headers then none
  else
    let rowData := headers.map (fun h => (h, cellTextAt columnMap row h))
    if rowData.all (fun p => p.2 = "") then none
    else
      let description :=
        if rowDataGet rowData "기능 설명" ≠ "" then rowDataGet rowData "기능 설명"
        else rowDataGet rowData "기능 개요"
      some ⟨rowDataGet rowData "대분류", rowDataGet rowData "중분류",
        rowDataGet rowData "소분류", description⟩

/-- The record extraction of `parse_feature_list_workbook` over the data rows. -/
def extractDataRows (columnMap : List (String × Nat)) (headers : List String)
    (rows : List (List (Option String))) : List FeatureRow :=
  rows.filterMap (processDataRow columnMap headers)

/-- One CSV field under `csv.writer` minimal quoting: fields containing a
delimiter, quote or line break are quoted with internal quotes doubled. -/
def csvField (s : String) : String :=
  if s.data.any (fun c => c = ',' || c = '"' || c = '\n' || c = '\r') then
    "\"" ++ String.mk (s.data.foldr
      (fun c acc => if c = '"' then '"' :: '"' :: acc else c :: acc) []) ++ "\""
  else s

/-- One CSV line terminated by a single newline. -/
def csvLine (fields : List String) : String :=
  String.intercalate "," (fields.map csvField) ++ "\n"

/-- The per-record body of `build_feature_list_csv`: strip the four fields,
emit nothing when all are empty, otherwise one CSV line in schema order. -/
def emitCsvRow (r : FeatureRow) : Option String :=
  let major := pyStrip r.majorCategory
  let middle := pyStrip r.middleCategory
  let minor := pyStrip r.minorCategory
  let description := pyStrip r.featureDescription
  if major = "" && middle = "" && minor = "" && description = "" then none
  else some (csvLine [major, middle, minor, description])

/-- `build_feature_list_csv` from `google_drive/feature_lists.py`: a header
line in schema order followed by one line per non-empty record. -/
def build_feature_list_csv (rows : List FeatureRow) : String :=
  csvLine FEATURE_LIST_EXPECTED_HEADERS ++ String.join (rows.filterMap emitCsvRow)

/-! ### The spreadsheet population engine

The `excel_templates` package is not among the sources; every definition in
this section is modelled from the specification (its merge algorithm, region
replacement policy, overview round-trip contract and archive rewriting
contract), as its doc comment records. -/

/-- Modelled from the spec: the value of record `i` in hierarchical column
`c` (records are rows of the hierarchical-column values, outer-to-inner). -/
def valueAt (recs : List (List String)) (i c : Nat) : String :=
  (recs.getD i []).getD c ""

/-- Modelled from the spec: does record `i` start a new merge group in
hierarchical column `c`?  Row zero always does; otherwise a group starts when
the value differs from the previous record's value in this column, or when
the immediately more-significant column starts a group at this row (which by
chaining covers every ancestor column). -/
def startsNewGroup (recs : List (List String)) : Nat → Nat → Bool
  | 0, _ => true
  | i + 1, 0 => decide (valueAt recs (i + 1) 0 ≠ valueAt recs i 0)
  | i + 1, c + 1 =>
    decide (valueAt recs (i + 1) (c + 1) ≠ valueAt recs i (c + 1)) ||
      startsNewGroup recs (i + 1) c

/-- Modelled from the spec: the value written into record `i`'s cell of
hierarchical column `c` — the record's value at the top of a merge group, the
empty string below it. -/
def cellOut (recs : List (List String)) (i c : Nat) : String :=
  if startsNewGroup recs i c then valueAt recs i c else ""

/-- The rows at which a new merge group starts in column `c` (ascending). -/
def groupTops (recs : List (List String)) (c : Nat) : List Nat :=
  (List.range recs.length).filter (fun i => startsNewGroup recs i c)

/-- Turn the ascending list of group top rows into merge regions: each group
spans from its top row to the row before the next top (the last one to the
last record), and only groups of at least two rows yield a region. -/
def regionsFromTops (n : Nat) : List Nat → List (Nat × Nat)
  | [] => []
  | [t] => if t < n - 1 then [(t, n - 1)] else []
  | t :: t2 :: rest =>
    (if t < t2 - 1 then [(t, t2 - 1)] else []) ++ regionsFromTops n (t2 :: rest)

/-- Modelled from the spec: the merge regions registered for hierarchical
column `c` as (top row, bottom row) pairs of record indices. -/
def mergeRegions (recs : List (List String)) (c : Nat) : List (Nat × Nat) :=
  regionsFromTops recs.length (groupTops recs c)

/-- A typed worksheet model: a sparse cell grid addressed by
(column index, row number) and a set of vertical merge regions given as
((column, top row), (column, bottom row)). -/
structure Worksheet where
  cells : List ((Nat × Nat) × String)
  merges : List ((Nat × Nat) × (Nat × Nat))
deriving DecidableEq

/-- A named part of the workbook container: the target worksheet is held in
typed form, the overview cell as its text, and every other part as an opaque
byte blob (equality of `PartData` is byte identity). -/
inductive PartData where
  | sheet (ws : Worksheet)
  | overviewCell (text : String)
  | blob (bytes : List Nat)
deriving DecidableEq

/-- The workbook container: an ordered collection of named parts. -/
abbrev Workbook := List (String × PartData)

/-- Look a part up by name (first match). -/
def lookupPart (wb : Workbook) (name : String) : Option PartData :=
  match wb.find? (fun p => p.1 = name) with
  | some p => some p.2
  | none => none

/-- Modelled from the spec: `replace_parts` of the archive rewriter — copy
every part verbatim except those named in the replacement map, preserving
part order. -/
def replaceParts (wb : Workbook) (repl : List (String × PartData)) : Workbook :=
  wb.map (fun p =>
    match repl.find? (fun q => q.1 = p.1) with
    | some q => (p.1, q.2)
    | none => p)

/-- The closed enumeration of template kinds (the keys of
`SPREADSHEET_RULES` in `google_drive/templates.py`). -/
inductive TemplateType where
  | featureList
  | testcaseGeneration
  | defectReport
  | securityReport
deriving DecidableEq

/-- Modelled from the spec: the static column schema of each template kind.
Only the feature-list schema is pinned down by the sources; the other
schemas' labels do not influence any theorem below. -/
def templateSchema : TemplateType → List String
  | .featureList => FEATURE_LIST_EXPECTED_HEADERS
  | .testcaseGeneration => ["대분류", "중분류", "소분류", "테스트 시나리오", "식별자"]
  | .defectReport => ["결함 요약", "결함정도", "발생빈도", "품질특성", "결함 설명"]
  | .securityReport => ["결함 요약", "결함정도", "발생빈도", "품질특성", "결함 설명"]

/-- Modelled from the spec: how many leading schema columns merge
hierarchically (major/middle/minor for the tabular templates, none for the
report templates). -/
def templateHierarchy : TemplateType → Nat
  | .featureList => 3
  | .testcaseGeneration => 3
  | .defectReport => 0
  | .securityReport => 0

/-- Modelled from the spec: the first data row each template pre-provisions
(row 8 for the feature list per `FEATURE_LIST_START_ROW`, row 6 for the
testcase list per its fixture). -/
def templateStartRow : TemplateType → Nat
  | .featureList => 8
  | .testcaseGeneration => 6
  | .defectReport => 6
  | .securityReport => 6

/-- The container name of the worksheet part rewritten by `populate`. -/
def sheetPartName : String := "xl/worksheets/sheet1.xml"

/-- The container name of the part holding the overview cell. -/
def overviewPartName : String := "xl/worksheets/overview.xml"

/-- Split one CSV record into fields, honouring double-quote quoting with
doubled-quote escapes; `none` on an unterminated quoted field.  The first
flag tracks being inside quotes, the final list accumulates the current field
reversed. -/
def csvSplitAux : List Char → Bool → List Char → Option (List String)
  | [], true, _ => none
  | [], false, cur => some [String.mk cur.reverse]
  | '"' :: '"' :: cs, true, cur => csvSplitAux cs true ('"' :: cur)
  | '"' :: cs, true, cur => csvSplitAux cs false cur
  | '"' :: cs, false, cur => csvSplitAux cs true cur
  | ',' :: cs, false, cur =>
    match csvSplitAux cs false [] with
    | some fields => some (String.mk cur.reverse :: fields)
    | none => none
  | c :: cs, inQ, cur => csvSplitAux cs inQ (c :: cur)

/-- Split one CSV line into its fields. -/
def csvSplitLine (line : String) : Option (List String) :=
  csvSplitAux line.data false []

/-- Strip an optional byte-order mark. -/
def stripBom (s : String) : String :=
  if s.data.headD ' ' = '\ufeff' then String.mk (s.data.drop 1) else s

/-- Split a character list at newlines (the accumulator holds the current
line reversed). -/
def splitLinesList : List Char → List Char → List String
  | [], cur => [String.mk cur.reverse]
  | '\n' :: cs, cur => String.mk cur.reverse :: splitLinesList cs []
  | c :: cs, cur => splitLinesList cs (c :: cur)

/-- Split a string into its newline-separated lines. -/
def splitLines (s : String) : List String :=
  splitLinesList s.data []

/-- Modelled from the spec: parse the delimited text against a schema — strip
the byte-order mark, split into newline-terminated records dropping blank
lines, bind the first line's labels to positions by exact match, fill
expected columns missing from the input with the empty string, and drop any
record whose every field is empty.  Fails on malformed quoting. -/
def parseCsvTable (schema : List String) (csv : String) : Option (List (List String)) :=
  let lines := (splitLines (stripBom csv)).filter (fun l => l ≠ "")
  match lines with
  | [] => some []
  | headerLine :: dataLines =>
    match csvSplitLine headerLine with
    | none => none
    | some headerFields =>
      let rows := dataLines.mapM csvSplitLine
      match rows with
      | none => none
      | some rows =>
        some (rows.filterMap (fun r =>
          let record := schema.map (fun col =>
            match headerFields.findIdx? (fun h => h = col) with
            | some i => r.getD i ""
            | none => "")
          if record.all (fun v => v = "") then none else some record))

/-- Modelled from the spec: the merge-aware cell writer.  Clears every cell
of the write block (the schema columns from the start row down) and every
merge region of a hierarchical column reaching into the block, then writes
one cell per record and column — merge-grouped values for the hierarchical
columns, verbatim values elsewhere — and registers the computed merge
regions, offset to worksheet rows. -/
def writeBlock (startRow hier ncols : Nat) (recs : List (List String))
    (ws : Worksheet) : Worksheet :=
  let inBlockCell := fun (a : (Nat × Nat) × String) =>
    a.1.1 < ncols && startRow ≤ a.1.2
  let replacedMerge := fun (m : (Nat × Nat) × (Nat × Nat)) =>
    m.1.1 < hier && startRow ≤ m.2.2
  let newCells := (List.range ncols).flatMap (fun c =>
    (List.range recs.length).map (fun i =>
      ((c, startRow + i), if c < hier then cellOut recs i c else valueAt recs i c)))
  let newMerges := (List.range hier).flatMap (fun c =>
    (mergeRegions recs c).map (fun r => ((c, startRow + r.1), (c, startRow + r.2))))
  { cells := ws.cells.filter (fun a => !(inBlockCell a)) ++ newCells,
    merges := ws.merges.filter (fun m => !(replacedMerge m)) ++ newMerges }

/-- Modelled from the spec: `populate(template_type, workbook_bytes,
csv_text, overview_text?)`.  Locates the worksheet part, parses the delimited
text, rewrites the worksheet part through the archive rewriter and, when an
overview text is supplied, locates the overview part and overwrites its text;
fails when the worksheet part cannot be located, the text is malformed, or
the overview cell cannot be located. -/
def populate (tpl : TemplateType) (wb : Workbook) (csv : String)
    (overview : Option String) : Option Workbook :=
  match lookupPart wb sheetPartName with
  | some (PartData.sheet ws) =>
    match parseCsvTable (templateSchema tpl) csv with
    | none => none
    | some recs =>
      let ws2 := writeBlock (templateStartRow tpl) (templateHierarchy tpl)
        (templateSchema tpl).length recs ws
      let wb2 := replaceParts wb [(sheetPartName, PartData.sheet ws2)]
      match overview with
      | none => some wb2
      | some t =>
        match lookupPart wb2 overviewPartName with
        | some _ => some (replaceParts wb2 [(overviewPartName, PartData.overviewCell t)])
        | none => none
  | _ => none

/-- Modelled from the spec: `extract_overview(workbook_bytes)` — read the
overview cell's text back. -/
def extract_overview (wb : Workbook) : Option String :=
  match lookupPart wb overviewPartName with
  | some (PartData.overviewCell t) => some t
  | _ => none

example : normalize_drive_text "  Foo\xa0Bar  " = "foo bar" := by rfl
example : squash_drive_text "a b_c-(d).e" = "abcde" := by rfl
example : strip_drive_version_suffix "기능리스트 v1.0" = "기능리스트" := by rfl
example : strip_drive_extension "기능리스트 v1.0.xlsx" = "기능리스트 v1.0" := by rfl
example : drive_name_variants "   " = [] := by rfl
example : drive_name_matches "기능 리스트 v1.0.xlsx" "기능리스트" = true := by rfl
example :
    looks_like_header_row
      [some " 대분류 (필수)", some "중분류\n항목", some "소분류-예시", some "상세 설명"]
      FEATURE_LIST_EXPECTED_HEADERS = true := by rfl
example :
    looks_like_header_row [some "대분류", some "", some "기타", some "", some ""]
      FEATURE_LIST_EXPECTED_HEADERS = false := by rfl
example :
    resolveStartRow FEATURE_LIST_EXPECTED_HEADERS
      [[none, none, none, none],
       [some "대분류", some "중분류", some "소분류", some "기능 설명"],
       [some "대1", some "중1", some "", some "desc"]] = 3 := by rfl
example :
    resolveStartRow FEATURE_LIST_EXPECTED_HEADERS
      [[none, none, none, none], [some "값", none, none, none]] = 2 := by rfl
example :
    build_feature_list_csv [⟨"대1", "중1", "", "desc1"⟩, ⟨"", " ", "", ""⟩] =
      "대분류,중분류,소분류,기능 설명\n대1,중1,,desc1\n" := by rfl

/-- One-based index of the first element satisfying `p`, starting the count
at `i` (the declarative description of the fallback data row). -/
def firstIdxFrom (p : α → Bool) : List α → Nat → Option Nat
  | [], _ => none
  | r :: rs, i => if p r then some i else firstIdxFrom p rs (i + 1)

/-! ### Theorems -/

/-- Intersection testing between two lists seen as sets is symmetric. -/
theorem any_contains_comm (l1 l2 : List String) :
    (l1.any fun t => decide (t ∈ l2)) = (l2.any fun t => decide (t ∈ l1)) := by
  rw [Bool.eq_iff_iff]
  simp only [List.any_eq_true, decide_eq_true_eq]
  exact ⟨fun ⟨x, h1, h2⟩ => ⟨x, h2, h1⟩, fun ⟨x, h1, h2⟩ => ⟨x, h2, h1⟩⟩

/-- C10: `drive_name_matches` is symmetric — it tests non-empty intersection
of the two variant sets, which is commutative. -/
theorem drive_name_matches_symm (a b : String) :
    drive_name_matches a b = drive_name_matches b a := by
  unfold drive_name_matches
  by_cases h1 : drive_name_variants a = [] <;>
    by_cases h2 : drive_name_variants b = [] <;>
      simp [h1, h2, any_contains_comm]

/-- C9: a string that normalizes to the empty string has no name variants,
and a pair of names in which either side normalizes to the empty string never
matches — in particular two blank labels do not match each other. -/
theorem blank_names_never_match :
    (∀ a : String, normalize_drive_text a = "" → drive_name_variants a = []) ∧
    (∀ a b : String,
      normalize_drive_text a = "" ∨ normalize_drive_text b = "" →
      drive_name_matches a b = false) := by
  have hvar : ∀ a : String, normalize_drive_text a = "" → drive_name_variants a = [] := by
    intro a ha
    unfold drive_name_variants
    rw [ha]
    simp
  refine ⟨hvar, ?_⟩
  intro a b hab
  unfold drive_name_matches
  rcases hab with h | h
  · simp [hvar a h]
  · simp [hvar b h]

/-- C9 witness: the all-whitespace name has no variants and does not match a
real name (nor does the real name match it). -/
theorem blank_names_never_match_witness :
    normalize_drive_text "   " = "" ∧
    drive_name_variants "   " = [] ∧
    drive_name_matches "   " "기능리스트" = false ∧
    drive_name_matches "기능리스트" "   " = false :=
  ⟨rfl, blank_names_never_match.1 "   " rfl,
    blank_names_never_match.2 "   " "기능리스트" (Or.inl rfl),
    blank_names_never_match.2 "기능리스트" "   " (Or.inr rfl)⟩

/-- C8 counterexample: the comma is punctuation, yet `squash_drive_text`
keeps it, so the labels "a,b" and "ab", which differ only in a punctuation
separator, do not squash to the same key. -/
theorem squash_drive_text_keeps_comma :
    squash_drive_text "a,b" = "a,b" ∧
    squash_drive_text "a,b" ≠ squash_drive_text "ab" := by
  refine ⟨rfl, ?_⟩
  decide

/-- C8 (amended): `squash_drive_text` removes exactly the characters of the
class whitespace, dot, underscore, hyphen and parenthesis — it filters that
class out of the string, so two labels differing only in characters of that
class squash to the same key; other punctuation (e.g. a comma) is kept. -/
theorem squash_drive_text_removes_separator_class :
    (∀ s : String,
      squash_drive_text s = String.mk (s.data.filter (fun c => !(isSquashRemoved c)))) ∧
    (∀ a b : String,
      a.data.filter (fun c => !(isSquashRemoved c)) =
        b.data.filter (fun c => !(isSquashRemoved c)) →
      squash_drive_text a = squash_drive_text b) ∧
    squash_drive_text "a b_c-(d).e" = "abcde" := by
  have base : ∀ s : String,
      squash_drive_text s = String.mk (s.data.filter (fun c => !(isSquashRemoved c))) := by
    intro s
    by_cases h : s = ""
    · subst h; rfl
    · simp [squash_drive_text, h]
  refine ⟨base, ?_, rfl⟩
  intro a b h
  rw [base a, base b, h]

/-- C8 amended-claim witness: two labels differing only in separator-class
characters squash identically. -/
theorem squash_drive_text_removes_separator_class_witness :
    ("기능 리스트").data.filter (fun c => !(isSquashRemoved c)) =
      ("기능리스트").data.filter (fun c => !(isSquashRemoved c)) ∧
    squash_drive_text "기능 리스트" = squash_drive_text "기능리스트" :=
  ⟨rfl, squash_drive_text_removes_separator_class.2.1 "기능 리스트" "기능리스트" rfl⟩

/-- The match count of an empty row is zero. -/
theorem headerMatchCount_nil (expected : List String) :
    headerMatchCount [] expected = 0 := by
  unfold headerMatchCount
  simp

/-- The threshold `max 1 (n - 1)` is never at most zero. -/
theorem header_threshold_pos (n : Nat) : ¬ (max 1 (n - 1) ≤ 0) := by
  omega

/-- C5 (amended): `looks_like_header_row` returns true exactly when the
number of expected labels with a matching cell reaches
`max 1 (expected.length - 1)` — the spec's threshold of `n - 1` plus the
floor of at least one actual match (which also forces an empty row to be
rejected); in particular the four-label feature-list header with one
corrupted label is recognized while the row with two corrupted or missing
labels is not. -/
theorem looks_like_header_row_iff_threshold :
    (∀ (values : List (Option String)) (expected : List String),
      looks_like_header_row values expected =
        decide (max 1 (expected.length - 1) ≤ headerMatchCount values expected)) ∧
    looks_like_header_row
      [some " 대분류 (필수)", some "중분류\n항목", some "소분류-예시", some "상세 설명"]
      FEATURE_LIST_EXPECTED_HEADERS = true ∧
    looks_like_header_row [some "대분류", some "", some "기타", some "", some ""]
      FEATURE_LIST_EXPECTED_HEADERS = false := by
  refine ⟨?_, rfl, rfl⟩
  intro values expected
  unfold looks_like_header_row
  by_cases hv : values = []
  · subst hv
    rw [if_pos rfl, headerMatchCount_nil]
    rw [decide_eq_false (header_threshold_pos expected.length)]
  · rw [if_neg hv]
    show (if headerMatchCount values expected = 0 then false
      else decide (max 1 (expected.length - 1) ≤ headerMatchCount values expected)) = _
    by_cases hm : headerMatchCount values expected = 0
    · rw [if_pos hm, hm, decide_eq_false (header_threshold_pos expected.length)]
    · rw [if_neg hm]

/-- C5 counterexample: with a single expected label and a non-matching cell
the match count (zero) already reaches `length - 1 = 0`, yet the row is
rejected — the implemented threshold is `max 1 (n - 1)`, not `n - 1`. -/
theorem looks_like_header_row_singleton_counterexample :
    looks_like_header_row [some "xy"] ["ab"] = false ∧
    (["ab"] : List String).length - 1 ≤ headerMatchCount [some "xy"] ["ab"] :=
  ⟨rfl, by decide⟩

/-- C7: a record whose every field is empty produces no output row — the
worksheet extraction of `parse_feature_list_workbook` skips such a row
(whether or not it resembles a header), and `build_feature_list_csv` emits no
line for a record whose four fields strip to the empty string. -/
theorem empty_record_produces_no_output_row :
    (∀ (columnMap : List (String × Nat)) (headers : List String)
        (row : List (Option String)),
      (∀ h ∈ headers, cellTextAt columnMap row h = "") →
      processDataRow columnMap headers row = none) ∧
    (∀ (columnMap : List (String × Nat)) (headers : List String)
        (pre suf : List (List (Option String))) (row : List (Option String)),
      (∀ h ∈ headers, cellTextAt columnMap row h = "") →
      extractDataRows columnMap headers (pre ++ row :: suf) =
        extractDataRows columnMap headers (pre ++ suf)) ∧
    (∀ (pre suf : List FeatureRow) (r : FeatureRow),
      pyStrip r.majorCategory = "" → pyStrip r.middleCategory = "" →
      pyStrip r.minorCategory = "" → pyStrip r.featureDescription = "" →
      build_feature_list_csv (pre ++ r :: suf) = build_feature_list_csv (pre ++ suf)) := by
  have hrow : ∀ (columnMap : List (String × Nat)) (headers : List String)
      (row : List (Option String)),
      (∀ h ∈ headers, cellTextAt columnMap row h = "") →
      processDataRow columnMap headers row = none := by
    intro cm hs row hempty
    unfold processDataRow
    split
    · rfl
    · have hall : (hs.map (fun h => (h, cellTextAt cm row h))).all
          (fun p => p.2 = "") = true := by
        rw [List.all_eq_true]
        intro p hp
        rw [List.mem_map] at hp
        obtain ⟨h, hh, rfl⟩ := hp
        simpa using hempty h hh
      simp only [hall, if_true]
  have hemit : ∀ r : FeatureRow,
      pyStrip r.majorCategory = "" → pyStrip r.middleCategory = "" →
      pyStrip r.minorCategory = "" → pyStrip r.featureDescription = "" →
      emitCsvRow r = none := by
    intro r h1 h2 h3 h4
    unfold emitCsvRow
    simp [h1, h2, h3, h4]
  refine ⟨hrow, ?_, ?_⟩
  · intro cm hs pre suf row hempty
    unfold extractDataRows
    rw [List.filterMap_append, List.filterMap_append, List.filterMap_cons,
      hrow cm hs row hempty]
  · intro pre suf r h1 h2 h3 h4
    unfold build_feature_list_csv
    rw [List.filterMap_append, List.filterMap_append, List.filterMap_cons,
      hemit r h1 h2 h3 h4]

/-- C7 witness: a worksheet row of blank cells yields no record, and the
all-blank record contributes no CSV line. -/
theorem empty_record_produces_no_output_row_witness :
    (∀ h ∈ FEATURE_LIST_EXPECTED_HEADERS,
      cellTextAt [("대분류", 0)] [some " ", none] h = "") ∧
    processDataRow [("대분류", 0)] FEATURE_LIST_EXPECTED_HEADERS [some " ", none] = none ∧
    build_feature_list_csv [⟨"대1", "중1", "", "desc1"⟩, ⟨"", " ", "", ""⟩] =
      build_feature_list_csv [⟨"대1", "중1", "", "desc1"⟩] := by
  refine ⟨by decide, ?_, ?_⟩
  · exact empty_record_produces_no_output_row.1 _ _ _ (by decide)
  · exact empty_record_produces_no_output_row.2.2 [⟨"대1", "중1", "", "desc1"⟩] []
      ⟨"", " ", "", ""⟩ rfl rfl rfl rfl

/-- Once a first data row has been recorded, a header-free scan keeps it and
finds no header row. -/
theorem scanRows_no_header_some (headers : List String)
    (rows : List (List (Option String))) (idx f : Nat)
    (hnone : ∀ r ∈ rows, looks_like_header_row r headers = false) :
    scanRows headers rows idx (some f) = ⟨none, none, some f⟩ := by
  induction rows generalizing idx with
  | nil => rfl
  | cons row rest ih =>
    have hm : looks_like_header_row row headers = false := hnone row (by simp)
    unfold scanRows
    simp only [hm, Option.isNone_some, Bool.and_false, Bool.if_false_right,
      Bool.and_true, if_false, Option.isSome_some, Bool.false_eq_true]
    split
    · rfl
    · exact ih _ (fun r hr => hnone r (List.mem_cons_of_mem _ hr))

/-- A header-free scan records as first data row the first row with a
non-empty value among the expected columns. -/
theorem scanRows_no_header (headers : List String)
    (rows : List (List (Option String))) (idx : Nat)
    (hnone : ∀ r ∈ rows, looks_like_header_row r headers = false) :
    scanRows headers rows idx none =
      ⟨none, none, firstIdxFrom (rowHasValues headers) rows idx⟩ := by
  induction rows generalizing idx with
  | nil => rfl
  | cons row rest ih =>
    have hm : looks_like_header_row row headers = false := hnone row (by simp)
    have hrest : ∀ r ∈ rest, looks_like_header_row r headers = false :=
      fun r hr => hnone r (List.mem_cons_of_mem _ hr)
    unfold scanRows firstIdxFrom
    by_cases hv : rowHasValues headers row = true
    · simp only [hm, hv, Bool.not_false, Option.isNone_none, Bool.and_true,
        Bool.and_self, if_true, if_false, Bool.false_eq_true, Option.isSome_some]
      split
      · rfl
      · exact scanRows_no_header_some headers rest _ idx hrest
    · have hv2 : rowHasValues headers row = false := by
        cases h : rowHasValues headers row
        · rfl
        · exact absurd h hv
      simp only [hm, hv2, Bool.false_and, Bool.and_false, if_false,
        Option.isSome_none, Bool.false_eq_true]
      exact ih _ hrest

/-- Association-list lookup scans an append left to right. -/
theorem alistLookup_append (m1 m2 : List (String × Nat)) (k : String) :
    alistLookup (m1 ++ m2) k =
      match alistLookup m1 k with
      | some v => some v
      | none => alistLookup m2 k := by
  unfold alistLookup
  rw [List.find?_append]
  cases m1.find? (fun p => p.1 = k) <;> simp [Option.or]

/-- `setdefault` for another key or an already-bound key does not disturb an
existing binding. -/
theorem alistLookup_setdefault_some (m : List (String × Nat)) (k k2 : String)
    (v v2 : Nat) (h : alistLookup m k = some v) :
    alistLookup (setdefault m k2 v2) k = some v := by
  unfold setdefault
  split
  · exact h
  · rw [alistLookup_append, h]

/-- `setdefault` binds an unbound key to the supplied default. -/
theorem alistLookup_setdefault_new (m : List (String × Nat)) (k : String)
    (v : Nat) (h : alistLookup m k = none) :
    alistLookup (setdefault m k v) k = some v := by
  unfold setdefault
  rw [if_neg (by rw [h]; simp)]
  rw [alistLookup_append, h]
  simp [alistLookup, List.find?]

/-- `setdefault` on a different key leaves an unbound key unbound. -/
theorem alistLookup_setdefault_miss (m : List (String × Nat)) (k k2 : String)
    (v2 : Nat) (hne : k2 ≠ k) (h : alistLookup m k = none) :
    alistLookup (setdefault m k2 v2) k = none := by
  unfold setdefault
  split
  · exact h
  · rw [alistLookup_append, h]
    simp [alistLookup, List.find?, hne]

/-- C6: the header-resolution phase is total and degrades to positional
defaults: when no scanned row meets the header threshold the data start row
is the first row holding any non-empty value among the expected column
positions (clamped to at least one), or else the configured default start
row; and every schema label without a discovered column is mapped to its
positional index in the static schema order. -/
theorem header_resolution_degrades_gracefully :
    (∀ rows : List (List (Option String)),
      (∀ r ∈ rows, looks_like_header_row r FEATURE_LIST_EXPECTED_HEADERS = false) →
      resolveStartRow FEATURE_LIST_EXPECTED_HEADERS rows =
        match firstIdxFrom (rowHasValues FEATURE_LIST_EXPECTED_HEADERS) rows 1 with
        | some f => max 1 f
        | none => FEATURE_LIST_START_ROW) ∧
    (∀ (m : List (String × Nat)) (name : String),
      name ∈ FEATURE_LIST_EXPECTED_HEADERS → alistLookup m name = none →
      alistLookup (applyColumnDefaults m) name =
        some (FEATURE_LIST_EXPECTED_HEADERS.indexOf name)) := by
  constructor
  · intro rows hnone
    unfold resolveStartRow
    rw [scanRows_no_header FEATURE_LIST_EXPECTED_HEADERS rows 1 hnone]
  · intro m name hmem hnone
    have hunfold : applyColumnDefaults m =
        setdefault (setdefault (setdefault (setdefault m "대분류" 0)
          "중분류" 1) "소분류" 2) "기능 설명" 3 := rfl
    rw [hunfold]
    simp only [FEATURE_LIST_EXPECTED_HEADERS, List.mem_cons,
      List.not_mem_nil, or_false] at hmem
    rcases hmem with rfl | rfl | rfl | rfl
    · show _ = some 0
      exact alistLookup_setdefault_some _ _ _ _ _
        (alistLookup_setdefault_some _ _ _ _ _
          (alistLookup_setdefault_some _ _ _ _ _
            (alistLookup_setdefault_new m _ _ hnone)))
    · show _ = some 1
      exact alistLookup_setdefault_some _ _ _ _ _
        (alistLookup_setdefault_some _ _ _ _ _
          (alistLookup_setdefault_new _ _ _
            (alistLookup_setdefault_miss m _ _ _ (by decide) hnone)))
    · show _ = some 2
      exact alistLookup_setdefault_some _ _ _ _ _
        (alistLookup_setdefault_new _ _ _
          (alistLookup_setdefault_miss _ _ _ _ (by decide)
            (alistLookup_setdefault_miss m _ _ _ (by decide) hnone)))
    · show _ = some 3
      exact alistLookup_setdefault_new _ _ _
        (alistLookup_setdefault_miss _ _ _ _ (by decide)
          (alistLookup_setdefault_miss _ _ _ _ (by decide)
            (alistLookup_setdefault_miss m _ _ _ (by decide) hnone)))

/-- C6 witness: a two-row sheet without a header resolves its start row to
the second row (the first row with data), and the untouched column map sends
the minor-category label to its schema position. -/
theorem header_resolution_degrades_gracefully_witness :
    (∀ r ∈ [[none, none, none, none], [some "값", none, none, none]],
      looks_like_header_row r FEATURE_LIST_EXPECTED_HEADERS = false) ∧
    resolveStartRow FEATURE_LIST_EXPECTED_HEADERS
      [[none, none, none, none], [some "값", none, none, none]] =
      (match firstIdxFrom (rowHasValues FEATURE_LIST_EXPECTED_HEADERS)
          [[none, none, none, none], [some "값", none, none, none]] 1 with
        | some f => max 1 f
        | none => FEATURE_LIST_START_ROW) ∧
    alistLookup (applyColumnDefaults []) "소분류" =
      some (FEATURE_LIST_EXPECTED_HEADERS.indexOf "소분류") :=
  ⟨by decide,
    header_resolution_degrades_gracefully.1 _ (by decide),
    header_resolution_degrades_gracefully.2 [] "소분류" (by decide) rfl⟩

/-- Replacing a part that exists makes its lookup return the new content. -/
theorem lookupPart_replaceParts_same (wb : Workbook) (n : String) (d : PartData)
    (h : (lookupPart wb n).isSome) :
    lookupPart (replaceParts wb [(n, d)]) n = some d := by
  induction wb with
  | nil => simp [lookupPart] at h
  | cons p rest ih =>
    by_cases hp : p.1 = n
    · simp [replaceParts, lookupPart, List.find?, hp]
    · have hh : (lookupPart rest n).isSome := by
        simpa [lookupPart, List.find?, hp] using h
      simpa [replaceParts, lookupPart, List.find?, hp, Ne.symm hp] using ih hh

/-- Replacing parts whose names all differ from `n` leaves the lookup of `n`
unchanged. -/
theorem lookupPart_replaceParts_other (wb : Workbook)
    (repl : List (String × PartData)) (n : String)
    (h : ∀ q ∈ repl, q.1 ≠ n) :
    lookupPart (replaceParts wb repl) n = lookupPart wb n := by
  induction wb with
  | nil => rfl
  | cons p rest ih =>
    obtain ⟨p1, p2⟩ := p
    by_cases hp : p1 = n
    · subst hp
      have hnone : repl.find? (fun q => decide (q.1 = p1)) = none := by
        apply List.find?_eq_none.mpr
        intro q hq
        simp only [decide_eq_true_eq]
        exact h q hq
      simp [replaceParts, lookupPart, List.find?, hnone]
    · cases hf : repl.find? (fun q => decide (q.1 = p1)) with
      | none => simpa [replaceParts, lookupPart, List.find?, hf, hp] using ih
      | some q => simpa [replaceParts, lookupPart, List.find?, hf, hp] using ih

/-- C2: `populate` is a pure function of template type, workbook, delimited
text and overview text — two invocations on equal inputs return identical
output. -/
theorem populate_deterministic (tpl : TemplateType) (wb1 wb2 : Workbook)
    (csv1 csv2 : String) (ov1 ov2 : Option String)
    (h1 : wb1 = wb2) (h2 : csv1 = csv2) (h3 : ov1 = ov2) :
    populate tpl wb1 csv1 ov1 = populate tpl wb2 csv2 ov2 := by
  subst h1; subst h2; subst h3; rfl

/-- C2 witness: two invocations on the same concrete workbook and text agree. -/
theorem populate_deterministic_witness :
    populate .featureList
      [(sheetPartName, PartData.sheet ⟨[], []⟩),
        (overviewPartName, PartData.overviewCell "")]
      "대분류,중분류,소분류,기능 설명\n대1,중1,,d1\n" (some "개요") =
    populate .featureList
      [(sheetPartName, PartData.sheet ⟨[], []⟩),
        (overviewPartName, PartData.overviewCell "")]
      "대분류,중분류,소분류,기능 설명\n대1,중1,,d1\n" (some "개요") :=
  populate_deterministic .featureList _ _ _ _ _ _ rfl rfl rfl

/-- C3: whenever `populate` succeeds with an overview text, reading the
overview back from its output returns exactly that text. -/
theorem populate_overview_roundtrip (tpl : TemplateType) (wb : Workbook)
    (csv : String) (T : String) (wb2 : Workbook)
    (hp : populate tpl wb csv (some T) = some wb2) :
    extract_overview wb2 = some T := by
  unfold populate at hp
  split at hp
  case h_1 ws heq =>
    cases hcsv : parseCsvTable (templateSchema tpl) csv with
    | none => rw [hcsv] at hp; exact absurd hp (by simp)
    | some recs =>
      rw [hcsv] at hp
      dsimp only at hp
      split at hp
      case h_1 pd hov =>
        injection hp with h
        subst h
        unfold extract_overview
        rw [lookupPart_replaceParts_same _ _ _ (by rw [hov]; rfl)]
      case h_2 => exact absurd hp (by simp)
  case h_2 => exact absurd hp (by simp)

/-- C3 witness: populating a tiny workbook with an overview text and reading
it back returns the text. -/
theorem populate_overview_roundtrip_witness :
    populate .featureList
      [(sheetPartName, PartData.sheet ⟨[], []⟩),
        (overviewPartName, PartData.overviewCell "")]
      "" (some "개요") =
      some [(sheetPartName, PartData.sheet ⟨[], []⟩),
        (overviewPartName, PartData.overviewCell "개요")] ∧
    extract_overview
      [(sheetPartName, PartData.sheet ⟨[], []⟩),
        (overviewPartName, PartData.overviewCell "개요")] = some "개요" :=
  ⟨rfl, populate_overview_roundtrip .featureList
    [(sheetPartName, PartData.sheet ⟨[], []⟩),
      (overviewPartName, PartData.overviewCell "")] "" "개요"
    [(sheetPartName, PartData.sheet ⟨[], []⟩),
      (overviewPartName, PartData.overviewCell "개요")] rfl⟩

/-- C4: every container part other than the worksheet part and the overview
part is byte-identical before and after a successful `populate`. -/
theorem populate_preserves_unrelated_parts (tpl : TemplateType) (wb : Workbook)
    (csv : String) (overview : Option String) (wb2 : Workbook)
    (hp : populate tpl wb csv overview = some wb2) (n : String)
    (h1 : n ≠ sheetPartName) (h2 : n ≠ overviewPartName) :
    lookupPart wb2 n = lookupPart wb n := by
  have single : ∀ (nm : String) (d : PartData), nm ≠ n →
      ∀ q ∈ [(nm, d)], q.1 ≠ n := by
    intro nm d hne q hq
    simp at hq
    rw [hq]
    exact hne
  unfold populate at hp
  split at hp
  case h_1 ws heq =>
    cases hcsv : parseCsvTable (templateSchema tpl) csv with
    | none => rw [hcsv] at hp; exact absurd hp (by simp)
    | some recs =>
      rw [hcsv] at hp
      cases overview with
      | none =>
        dsimp only at hp
        injection hp with h
        subst h
        exact lookupPart_replaceParts_other _ _ _ (single _ _ (Ne.symm h1))
      | some t =>
        dsimp only at hp
        split at hp
        case h_1 pd hov =>
          injection hp with h
          subst h
          rw [lookupPart_replaceParts_other _ _ _ (single _ _ (Ne.symm h2)),
            lookupPart_replaceParts_other _ _ _ (single _ _ (Ne.symm h1))]
        case h_2 => exact absurd hp (by simp)
  case h_2 => exact absurd hp (by simp)

/-- C4 witness: a blob part (e.g. a styles part) survives a successful
`populate` byte-for-byte. -/
theorem populate_preserves_unrelated_parts_witness :
    populate .featureList
      [(sheetPartName, PartData.sheet ⟨[], []⟩),
        (overviewPartName, PartData.overviewCell ""),
        ("xl/styles.xml", PartData.blob [1, 2, 3])]
      "" none =
      some [(sheetPartName, PartData.sheet ⟨[], []⟩),
        (overviewPartName, PartData.overviewCell ""),
        ("xl/styles.xml", PartData.blob [1, 2, 3])] ∧
    lookupPart
      [(sheetPartName, PartData.sheet ⟨[], []⟩),
        (overviewPartName, PartData.overviewCell ""),
        ("xl/styles.xml", PartData.blob [1, 2, 3])] "xl/styles.xml" =
      some (PartData.blob [1, 2, 3]) ∧
    lookupPart
      [(sheetPartName, PartData.sheet ⟨[], []⟩),
        (overviewPartName, PartData.overviewCell ""),
        ("xl/styles.xml", PartData.blob [1, 2, 3])] "xl/styles.xml" =
      lookupPart
        [(sheetPartName, PartData.sheet ⟨[], []⟩),
          (overviewPartName, PartData.overviewCell ""),
          ("xl/styles.xml", PartData.blob [1, 2, 3])] "xl/styles.xml" :=
  ⟨rfl, rfl,
    populate_preserves_unrelated_parts .featureList
      [(sheetPartName, PartData.sheet ⟨[], []⟩),
        (overviewPartName, PartData.overviewCell ""),
        ("xl/styles.xml", PartData.blob [1, 2, 3])] "" none
      [(sheetPartName, PartData.sheet ⟨[], []⟩),
        (overviewPartName, PartData.overviewCell ""),
        ("xl/styles.xml", PartData.blob [1, 2, 3])] rfl
      "xl/styles.xml" (by decide) (by decide)⟩

/-- A group start in a more-significant column forces a group start in every
less-significant column at the same row. -/
theorem startsNewGroup_mono (recs : List (List String)) (i : Nat) :
    ∀ {c2 c : Nat}, c2 ≤ c → startsNewGroup recs (i + 1) c2 = true →
      startsNewGroup recs (i + 1) c = true := by
  intro c2 c
  induction c with
  | zero =>
    intro hle h2
    have : c2 = 0 := Nat.le_zero.mp hle
    subst this
    exact h2
  | succ c ih =>
    intro hle h2
    by_cases he : c2 = c + 1
    · subst he
      exact h2
    · have hc : c2 ≤ c := by omega
      have hrec := ih hc h2
      unfold startsNewGroup
      rw [hrec]
      simp

/-- A row that does not start a new group repeats the previous row's value in
that column. -/
theorem not_startsNewGroup_value_eq (recs : List (List String)) (c i : Nat)
    (h : startsNewGroup recs (i + 1) c = false) :
    valueAt recs (i + 1) c = valueAt recs i c := by
  cases c with
  | zero =>
    unfold startsNewGroup at h
    simpa using h
  | succ c =>
    unfold startsNewGroup at h
    rcases Bool.or_eq_false_iff.mp h with ⟨h1, _⟩
    simpa using h1

/-- Inside a group (no group start strictly after the top row up to row `j`)
the column value stays the value at the top row. -/
theorem group_value_const (recs : List (List String)) (c r0 : Nat) :
    ∀ j, r0 ≤ j → (∀ k, r0 < k → k ≤ j → startsNewGroup recs k c = false) →
      valueAt recs j c = valueAt recs r0 c := by
  intro j
  induction j with
  | zero =>
    intro hle _
    have : r0 = 0 := Nat.le_zero.mp hle
    subst this
    rfl
  | succ j ih =>
    intro hle hgap
    by_cases he : r0 = j + 1
    · subst he
      rfl
    · have h1 : r0 ≤ j := by omega
      have h2 := hgap (j + 1) (by omega) (Nat.le_refl _)
      rw [not_startsNewGroup_value_eq recs c j h2]
      exact ih h1 (fun k hk1 hk2 => hgap k hk1 (Nat.le_succ_of_le hk2))

/-- Membership in the group-top list. -/
theorem groupTops_mem (recs : List (List String)) (c t : Nat) :
    t ∈ groupTops recs c ↔ t < recs.length ∧ startsNewGroup recs t c = true := by
  simp [groupTops, List.mem_filter, List.mem_range, and_comm]

/-- The group-top list is strictly ascending. -/
theorem groupTops_sorted (recs : List (List String)) (c : Nat) :
    (groupTops recs c).Pairwise (· < ·) :=
  (List.pairwise_lt_range recs.length).filter _


/-- Membership in the regions built from an ascending top list: a region is a
top together with the row just before the next top (or the last row), and
spans at least two rows. -/
theorem mem_regionsFromTops (n : Nat) :
    ∀ l : List Nat, l.Pairwise (· < ·) → (∀ t ∈ l, t < n) → ∀ r0 r1 : Nat,
    ((r0, r1) ∈ regionsFromTops n l ↔
      (r0 ∈ l ∧ r0 < r1 ∧ r1 < n ∧ (∀ j, r0 < j → j ≤ r1 → j ∉ l) ∧
        (r1 + 1 = n ∨ r1 + 1 ∈ l)))
  | [], _, _, r0, r1 => by simp [regionsFromTops]
  | [t], _, hn, r0, r1 => by
    have htn : t < n := hn t (by simp)
    simp only [regionsFromTops]
    constructor
    · intro hmem
      split at hmem
      · next hlt =>
        simp only [List.mem_singleton, Prod.mk.injEq] at hmem
        obtain ⟨rfl, rfl⟩ := hmem
        refine ⟨by simp, by omega, by omega, ?_, Or.inl (by omega)⟩
        intro j hj1 _
        simp only [List.mem_singleton]
        omega
      · simp at hmem
    · rintro ⟨hr0, hlt, hr1n, hgap, hnext⟩
      simp only [List.mem_singleton] at hr0
      subst hr0
      have hr1 : r1 + 1 = n := by
        rcases hnext with h | h
        · exact h
        · simp only [List.mem_singleton] at h
          omega
      rw [if_pos (by omega)]
      simp only [List.mem_singleton, Prod.mk.injEq]
      exact ⟨trivial, by omega⟩
  | t :: t2 :: rest2, hs, hn, r0, r1 => by
    have ht2 : t < t2 := (List.pairwise_cons.mp hs).1 t2 (by simp)
    have hrest : ∀ x ∈ rest2, t2 < x :=
      fun x hx => (List.pairwise_cons.mp (List.Pairwise.of_cons hs)).1 x hx
    have ht2n : t2 < n := hn t2 (by simp)
    have htail : (t2 :: rest2).Pairwise (· < ·) := List.Pairwise.of_cons hs
    have hntail : ∀ x ∈ t2 :: rest2, x < n := fun x hx => hn x (by simp [hx])
    have ih := mem_regionsFromTops n (t2 :: rest2) htail hntail r0 r1
    simp only [regionsFromTops, List.mem_append]
    constructor
    · intro hmem
      rcases hmem with hfst | hrec
      · have hsp : t < t2 - 1 := by
          by_contra hno
          rw [if_neg hno] at hfst
          simp at hfst
        rw [if_pos hsp] at hfst
        simp only [List.mem_singleton, Prod.mk.injEq] at hfst
        obtain ⟨rfl, rfl⟩ := hfst
        refine ⟨by simp, by omega, by omega, ?_, ?_⟩
        · intro j hj1 hj2
          simp only [List.mem_cons]
          push_neg
          refine ⟨by omega, by omega, ?_⟩
          intro hj
          have := hrest j hj
          omega
        · right
          have heq : t2 - 1 + 1 = t2 := by omega
          rw [heq]
          simp
      · obtain ⟨hr0, hlt, hr1n, hgap, hnext⟩ := ih.mp hrec
        have hr0t2 : t2 ≤ r0 := by
          rcases List.mem_cons.mp hr0 with rfl | hx
          · exact Nat.le_refl _
          · exact Nat.le_of_lt (hrest _ hx)
        refine ⟨List.mem_cons_of_mem t hr0, hlt, hr1n, ?_, ?_⟩
        · intro j hj1 hj2
          simp only [List.mem_cons]
          push_neg
          refine ⟨by omega, ?_⟩
          have := hgap j hj1 hj2
          simp only [List.mem_cons] at this
          push_neg at this
          exact this
        · exact hnext.imp_right (List.mem_cons_of_mem t)
    · rintro ⟨hr0, hlt, hr1n, hgap, hnext⟩
      rcases List.mem_cons.mp hr0 with rfl | hr0tail
      · -- the region starting at the head top ends right before the second
        have hr1t2 : r1 < t2 := by
          by_contra hno
          exact hgap t2 ht2 (by omega) (by simp)
        have hr1eq : r1 + 1 = t2 := by
          rcases hnext with h | h
          · omega
          · simp only [List.mem_cons] at h
            rcases h with h | h | h
            · omega
            · omega
            · have := hrest _ h
              omega
        left
        rw [if_pos (by omega)]
        simp only [List.mem_singleton, Prod.mk.injEq]
        exact ⟨trivial, by omega⟩
      · have hr0t2 : t2 ≤ r0 := by
          rcases List.mem_cons.mp hr0tail with rfl | hx
          · exact Nat.le_refl _
          · exact Nat.le_of_lt (hrest _ hx)
        right
        apply ih.mpr
        refine ⟨hr0tail, hlt, hr1n, ?_, ?_⟩
        · intro j hj1 hj2 hj
          exact hgap j hj1 hj2 (List.mem_cons_of_mem t hj)
        · rcases hnext with h | h
          · exact Or.inl h
          · simp only [List.mem_cons] at h
            rcases h with h | h
            · omega
            · exact Or.inr (by simpa [List.mem_cons] using h)

/-- Merge regions of a column are exactly the maximal groups of at least two
rows: the top row starts a group, no row strictly inside the span starts one,
and the span ends at the last record or right before the next group start. -/
theorem mem_mergeRegions (recs : List (List String)) (c r0 r1 : Nat) :
    (r0, r1) ∈ mergeRegions recs c ↔
      (r0 < r1 ∧ r1 < recs.length ∧ startsNewGroup recs r0 c = true ∧
        (∀ j, r0 < j → j ≤ r1 → startsNewGroup recs j c = false) ∧
        (r1 + 1 = recs.length ∨ startsNewGroup recs (r1 + 1) c = true)) := by
  rw [mergeRegions, mem_regionsFromTops recs.length (groupTops recs c)
    (groupTops_sorted recs c) (fun t ht => ((groupTops_mem recs c t).mp ht).1) r0 r1]
  constructor
  · rintro ⟨hr0, hlt, hr1n, hgap, hnext⟩
    obtain ⟨-, hstart⟩ := (groupTops_mem recs c r0).mp hr0
    refine ⟨hlt, hr1n, hstart, ?_, ?_⟩
    · intro j hj1 hj2
      have hnot := hgap j hj1 hj2
      rw [groupTops_mem] at hnot
      push_neg at hnot
      exact Bool.eq_false_iff.mpr (hnot (by omega))
    · rcases hnext with h | h
      · exact Or.inl h
      · exact Or.inr ((groupTops_mem recs c _).mp h).2
  · rintro ⟨hlt, hr1n, hstart, hgap, hnext⟩
    refine ⟨(groupTops_mem recs c r0).mpr ⟨by omega, hstart⟩, hlt, hr1n, ?_, ?_⟩
    · intro j hj1 hj2 hj
      have hj2t := ((groupTops_mem recs c j).mp hj).2
      rw [hgap j hj1 hj2] at hj2t
      exact Bool.false_ne_true hj2t
    · rcases hnext with h | h
      · exact Or.inl h
      · by_cases he : r1 + 1 = recs.length
        · exact Or.inl he
        · exact Or.inr ((groupTops_mem recs c _).mpr ⟨by omega, h⟩)

/-- A row starts a merge group exactly when it is the first row, its value in
the column differs from the previous row's value, or some more-significant
column starts a group at this row. -/
theorem startsNewGroup_characterization (recs : List (List String)) (i c : Nat) :
    startsNewGroup recs i c = true ↔
      (i = 0 ∨ valueAt recs i c ≠ valueAt recs (i - 1) c ∨
        ∃ c2, c2 < c ∧ startsNewGroup recs i c2 = true) := by
  cases i with
  | zero => simp [startsNewGroup]
  | succ i =>
    cases c with
    | zero =>
      simp only [startsNewGroup, decide_eq_true_eq, Nat.succ_sub_one]
      constructor
      · intro h
        exact Or.inr (Or.inl h)
      · rintro (h | h | ⟨c2, hc2, -⟩)
        · exact absurd h (by omega)
        · exact h
        · exact absurd hc2 (by omega)
    | succ c =>
      simp only [startsNewGroup, Bool.or_eq_true, decide_eq_true_eq, Nat.succ_sub_one]
      constructor
      · rintro (h | h)
        · exact Or.inr (Or.inl h)
        · exact Or.inr (Or.inr ⟨c, Nat.lt_succ_self c, h⟩)
      · rintro (h | h | ⟨c2, hc2, h⟩)
        · exact absurd h (by omega)
        · exact Or.inl h
        · exact Or.inr (startsNewGroup_mono recs i (Nat.lt_succ_iff.mp hc2) h)

/-- The cells of a merge region: the group's shared value sits in the top
cell, every other cell of the span is written empty, and the underlying
record values across the span are identical. -/
theorem mergeRegion_write (recs : List (List String)) (c r0 r1 : Nat)
    (h : (r0, r1) ∈ mergeRegions recs c) :
    cellOut recs r0 c = valueAt recs r0 c ∧
    ∀ j, r0 < j → j ≤ r1 →
      cellOut recs j c = "" ∧ valueAt recs j c = valueAt recs r0 c := by
  obtain ⟨hlt, hr1n, hstart, hgap, -⟩ := (mem_mergeRegions recs c r0 r1).mp h
  refine ⟨by simp [cellOut, hstart], ?_⟩
  intro j hj1 hj2
  refine ⟨by simp [cellOut, hgap j hj1 hj2], ?_⟩
  exact group_value_const recs c r0 j (by omega)
    (fun k hk1 hk2 => hgap k hk1 (le_trans hk2 hj2))

/-- C1: merge grouping per hierarchical column — a new group starts exactly
at the first record, at a value change, or when an ancestor column starts a
group at the row; every registered merge region is a maximal group of at
least two rows carrying one shared value, written into the top cell only with
empty strings below (single-row groups register no region); and on the
records [("A","1"), ("A","1"), ("A","2"), ("B","3")] the major column merges
the three "A" rows, the minor column merges the first two rows only, and the
fourth row has no merge. -/
theorem merge_grouping_per_hierarchical_column :
    (∀ (recs : List (List String)) (i c : Nat),
      startsNewGroup recs i c = true ↔
        (i = 0 ∨ valueAt recs i c ≠ valueAt recs (i - 1) c ∨
          ∃ c2, c2 < c ∧ startsNewGroup recs i c2 = true)) ∧
    (∀ (recs : List (List String)) (c r0 r1 : Nat),
      (r0, r1) ∈ mergeRegions recs c ↔
        (r0 < r1 ∧ r1 < recs.length ∧ startsNewGroup recs r0 c = true ∧
          (∀ j, r0 < j → j ≤ r1 → startsNewGroup recs j c = false) ∧
          (r1 + 1 = recs.length ∨ startsNewGroup recs (r1 + 1) c = true))) ∧
    (∀ (recs : List (List String)) (c r0 r1 : Nat),
      (r0, r1) ∈ mergeRegions recs c →
        cellOut recs r0 c = valueAt recs r0 c ∧
        ∀ j, r0 < j → j ≤ r1 →
          cellOut recs j c = "" ∧ valueAt recs j c = valueAt recs r0 c) ∧
    (mergeRegions [["A", "1"], ["A", "1"], ["A", "2"], ["B", "3"]] 0 = [(0, 2)] ∧
      mergeRegions [["A", "1"], ["A", "1"], ["A", "2"], ["B", "3"]] 1 = [(0, 1)] ∧
      (List.range 4).map
          (fun i => cellOut [["A", "1"], ["A", "1"], ["A", "2"], ["B", "3"]] i 0) =
        ["A", "", "", "B"] ∧
      (List.range 4).map
          (fun i => cellOut [["A", "1"], ["A", "1"], ["A", "2"], ["B", "3"]] i 1) =
        ["1", "", "2", "3"]) :=
  ⟨startsNewGroup_characterization, mem_mergeRegions, mergeRegion_write,
    rfl, rfl, rfl, rfl⟩

/-- C1 witness: the major-column region over the three "A" rows of the
example records carries "A" in its top cell and empty cells below. -/
theorem merge_grouping_per_hierarchical_column_witness :
    (0, 2) ∈ mergeRegions [["A", "1"], ["A", "1"], ["A", "2"], ["B", "3"]] 0 ∧
    cellOut [["A", "1"], ["A", "1"], ["A", "2"], ["B", "3"]] 0 0 = "A" ∧
    cellOut [["A", "1"], ["A", "1"], ["A", "2"], ["B", "3"]] 1 0 = "" ∧
    valueAt [["A", "1"], ["A", "1"], ["A", "2"], ["B", "3"]] 1 0 =
      valueAt [["A", "1"], ["A", "1"], ["A", "2"], ["B", "3"]] 0 0 :=
  ⟨by decide,
    (merge_grouping_per_hierarchical_column.2.2.1
      [["A", "1"], ["A", "1"], ["A", "2"], ["B", "3"]] 0 0 2 (by decide)).1,
    ((merge_grouping_per_hierarchical_column.2.2.1
      [["A", "1"], ["A", "1"], ["A", "2"], ["B", "3"]] 0 0 2 (by decide)).2 1
        (by decide) (by decide)).1,
    ((merge_grouping_per_hierarchical_column.2.2.1
      [["A", "1"], ["A", "1"], ["A", "2"], ["B", "3"]] 0 0 2 (by decide)).2 1
        (by decide) (by decide)).2⟩
